import Mathlib

/-!
Verification of the suite-hierarchy bookkeeping component (`src/core/Suite.js`)
of the jasmine test framework.  The JavaScript `Suite` object is shallowly
embedded: the ancestor chain becomes an inductive `Chain`, the mutable suite
state becomes a Lean structure `Suite` with pure state-passing operations, the
thrown `ExpectationFailed` control signal becomes an explicit `Option JsError`
return component, and the reference-semantics shared user contexts become an
explicit heap (`List UserContext`) addressed by numeric references.
-/

namespace JasmineSuite

/-- The chain of a suite node and its ancestors, mirroring the `parentSuite`
back-references: `root d` is a node whose `parentSuite` is null, `child d p`
is a node with description `d` whose `parentSuite` is `p`. -/
inductive Chain where
  | root (description : String)
  | child (description : String) (parent : Chain)
deriving DecidableEq, Repr

/-- `parentSuite` link of a chain node (`none` = the JS `null`/`undefined`). -/
def Chain.parentSuite : Chain → Option Chain
  | .root _ => none
  | .child _ p => some p

/-- `description` of a chain node. -/
def Chain.description : Chain → String
  | .root d => d
  | .child d _ => d

/-- The accumulator loop of `Suite.prototype.getFullName`: walk from the node
up through `parentSuite` links and, whenever the visited node itself has a
parent, `unshift` its description onto the accumulated array. -/
def Chain.fullNameAcc : Chain → List String → List String
  | .root _, acc => acc
  | .child d p, acc => Chain.fullNameAcc p (d :: acc)

/-- `Suite.prototype.getFullName` (src/core/Suite.js lines 95-107):
the accumulated descriptions joined by a single space. -/
def Chain.getFullName (c : Chain) : String :=
  String.intercalate " " (c.fullNameAcc [])

/-- The path from the tree root down to the node, root first. -/
def Chain.pathFromRoot : Chain → List Chain
  | .root d => [.root d]
  | .child d p => p.pathFromRoot ++ [.child d p]

/-- Stated from the specification's words (§4.1): the descriptions of all
nodes on the root-to-leaf path that have a parent, in root-to-leaf order,
joined by a single space. -/
def Chain.specFullName (c : Chain) : String :=
  String.intercalate " "
    ((c.pathFromRoot.filter (fun n => n.parentSuite.isSome)).map
      (fun n => n.description))

theorem Chain.fullNameAcc_append (c : Chain) (acc : List String) :
    c.fullNameAcc acc = c.fullNameAcc [] ++ acc := by
  induction c generalizing acc with
  | root d => simp [Chain.fullNameAcc]
  | child d p ih =>
    rw [Chain.fullNameAcc, Chain.fullNameAcc, ih (d :: acc), ih [d]]
    simp

theorem Chain.fullNameAcc_eq_spec (c : Chain) :
    c.fullNameAcc [] =
      (c.pathFromRoot.filter (fun n => n.parentSuite.isSome)).map
        (fun n => n.description) := by
  induction c with
  | root d => simp [Chain.fullNameAcc, Chain.pathFromRoot, Chain.parentSuite]
  | child d p ih =>
    rw [Chain.fullNameAcc, Chain.fullNameAcc_append]
    simp [Chain.pathFromRoot, Chain.parentSuite, Chain.description, ih]

/-- **C1.** For every suite node, `getFullName()` returns the descriptions of
all nodes on the path from the root to this node that have a parent (every
non-root node, the node itself included), in root-to-leaf order, joined by a
single space; in particular a root returns the empty string, a direct child
of the root returns its own description, and a grandchild "add" under child
"Calculator" under the root returns "Calculator add". -/
theorem getFullName_spec :
    (∀ c : Chain, c.getFullName = c.specFullName) ∧
    (∀ d : String, (Chain.root d).getFullName = "") ∧
    (Chain.child "Calculator" (Chain.root "r")).getFullName = "Calculator" ∧
    (Chain.child "add" (Chain.child "Calculator"
      (Chain.root "r"))).getFullName = "Calculator add" := by
  refine ⟨fun c => ?_, fun d => rfl, rfl, rfl⟩
  rw [Chain.getFullName, Chain.specFullName, Chain.fullNameAcc_eq_spec]

/-- Errors as seen by `Suite`: the dedicated `j$.errors.ExpectationFailed`
control signal (a typed error carrying no payload beyond its tag, checked by
`instanceof` in `onException`), or any other thrown value, identified
opaquely. -/
inductive JsError where
  | expectationFailed
  | other (id : Nat)
deriving DecidableEq, Repr

/-- The data record handed to the injected `expectationResultFactory`:
`onException` builds one with empty matcher name, empty expected/actual and
the raw error attached; matchers hand in their own; `addDeprecationWarning`
wraps raw text as a record carrying only a message. -/
structure FailureData where
  matcherName : String
  passed : Bool
  expected : String
  actual : String
  error : Option JsError
  message : Option String := none
deriving DecidableEq, Repr

/-- An element of the four hook lists: an object whose `fn` slot holds the
function reference (`none` models the `null` written by `removeFns`) next to
whatever metadata the engine attached. -/
structure QueueableFn where
  fn : Option Nat
  meta : Nat := 0
deriving DecidableEq, Repr

/-- An entry of `result.failedExpectations`: the factory-normalized payload,
on which `onException` may additionally set the `globalErrorType` property
(`none` models the property being absent). -/
structure ExpectationResult (α : Type) where
  payload : α
  globalErrorType : Option String := none
deriving DecidableEq, Repr

/-- The `SuiteResult` record built in the constructor.  The `status` field
does not exist until `getResult` assigns it, hence `Option`. -/
structure SuiteResult (α : Type) where
  id : Nat
  description : String
  fullName : String
  failedExpectations : List (ExpectationResult α)
  deprecationWarnings : List α
  duration : Option Int
  properties : Option (List (String × Int))
  status : Option String
deriving DecidableEq, Repr

/-- The `Suite` state: `α` is the opaque type of factory-normalized
expectation results, `expectationResultFactory` the injected factory.
`parentSuite` and `description` determine the node's own `Chain`.
`sharedContext` holds a heap reference once `sharedUserContext` assigns it. -/
structure Suite (α : Type) where
  id : Nat
  parentSuite : Option Chain
  description : String
  expectationResultFactory : FailureData → α
  throwOnExpectationFailure : Bool
  beforeFns : List QueueableFn
  afterFns : List QueueableFn
  beforeAllFns : List QueueableFn
  afterAllFns : List QueueableFn
  children : List Nat
  markedPending : Bool
  sharedContext : Option Nat
  result : SuiteResult α

/-- The node's own position in the ancestor chain. -/
def Suite.chain {α : Type} (s : Suite α) : Chain :=
  match s.parentSuite with
  | none => Chain.root s.description
  | some p => Chain.child s.description p

/-- `Suite.prototype.getFullName` applied to this node. -/
def Suite.getFullName {α : Type} (s : Suite α) : String :=
  s.chain.getFullName

/-- The `Suite` constructor (src/core/Suite.js lines 7-73): empty hook and
child lists, no pending mark, no shared context, and a fresh result record
whose `fullName` is computed by `getFullName()` at construction. -/
def Suite.init (α : Type) (id : Nat) (parentSuite : Option Chain)
    (description : String) (factory : FailureData → α)
    (throwFlag : Bool) : Suite α :=
  { id := id
    parentSuite := parentSuite
    description := description
    expectationResultFactory := factory
    throwOnExpectationFailure := throwFlag
    beforeFns := []
    afterFns := []
    beforeAllFns := []
    afterAllFns := []
    children := []
    markedPending := false
    sharedContext := none
    result :=
      { id := id
        description := description
        fullName :=
          (match parentSuite with
            | none => Chain.root description
            | some p => Chain.child description p).getFullName
        failedExpectations := []
        deprecationWarnings := []
        duration := none
        properties := none
        status := none } }

/-- `Suite.prototype.pend`. -/
def Suite.pend {α : Type} (s : Suite α) : Suite α :=
  { s with markedPending := true }

/-- `Suite.prototype.beforeEach`: `this.beforeFns.unshift(fn)`. -/
def Suite.beforeEach {α : Type} (s : Suite α) (fn : QueueableFn) : Suite α :=
  { s with beforeFns := fn :: s.beforeFns }

/-- `Suite.prototype.beforeAll`: `this.beforeAllFns.push(fn)`. -/
def Suite.beforeAll {α : Type} (s : Suite α) (fn : QueueableFn) : Suite α :=
  { s with beforeAllFns := s.beforeAllFns ++ [fn] }

/-- `Suite.prototype.afterEach`: `this.afterFns.unshift(fn)`. -/
def Suite.afterEach {α : Type} (s : Suite α) (fn : QueueableFn) : Suite α :=
  { s with afterFns := fn :: s.afterFns }

/-- `Suite.prototype.afterAll`: `this.afterAllFns.unshift(fn)`. -/
def Suite.afterAll {α : Type} (s : Suite α) (fn : QueueableFn) : Suite α :=
  { s with afterAllFns := fn :: s.afterAllFns }

/-- The `removeFns` helper: sets the `fn` slot of every element to null,
leaving the element in place. -/
def removeFns (queueableFns : List QueueableFn) : List QueueableFn :=
  queueableFns.map (fun q => { q with fn := none })

/-- `Suite.prototype.cleanupBeforeAfter`: `removeFns` on all four lists. -/
def Suite.cleanupBeforeAfter {α : Type} (s : Suite α) : Suite α :=
  { s with
    beforeAllFns := removeFns s.beforeAllFns
    afterAllFns := removeFns s.afterAllFns
    beforeFns := removeFns s.beforeFns
    afterFns := removeFns s.afterFns }

/-- `Suite.prototype.addChild`: `this.children.push(child)`. -/
def Suite.addChild {α : Type} (s : Suite α) (child : Nat) : Suite α :=
  { s with children := s.children ++ [child] }

/-- `Suite.prototype.status` (src/core/Suite.js lines 154-164). -/
def Suite.status {α : Type} (s : Suite α) : String :=
  if s.markedPending then "pending"
  else if s.result.failedExpectations.length > 0 then "failed"
  else "passed"

/-- `Suite.prototype.canBeReentered`. -/
def Suite.canBeReentered {α : Type} (s : Suite α) : Bool :=
  s.beforeAllFns.length = 0 && s.afterAllFns.length = 0

/-- `Suite.prototype.getResult`: assigns `this.result.status = this.status()`
and returns the (updated) result record. -/
def Suite.getResult {α : Type} (s : Suite α) : Suite α × SuiteResult α :=
  let s' := { s with result := { s.result with status := some s.status } }
  (s', s'.result)

/-- `Suite.prototype.setSuiteProperty`: lazily creates `result.properties`
then upserts `key → value` (modelled as an association list where the first
binding wins, so upsert prepends after removing the old binding). -/
def Suite.setSuiteProperty {α : Type} (s : Suite α) (key : String)
    (value : Int) : Suite α :=
  let props := s.result.properties.getD []
  { s with result :=
      { s.result with
        properties := some ((key, value) :: props.filter (fun kv => kv.1 ≠ key)) } }

/-- `Suite.prototype.endTimer`: stores the elapsed duration supplied by the
external timer collaborator. -/
def Suite.endTimer {α : Type} (s : Suite α) (elapsed : Int) : Suite α :=
  { s with result := { s.result with duration := some elapsed } }

/-- `isFailure(args)`: `!args[0]`. -/
def isFailure (passed : Bool) : Bool :=
  !passed

/-- `Suite.prototype.addExpectationResult` (src/core/Suite.js lines
236-244): on failure, push the factory-normalized record, then throw the
`ExpectationFailed` control signal when `throwOnExpectationFailure` is set.
The thrown signal is the `Option JsError` component of the return value. -/
def Suite.addExpectationResult {α : Type} (s : Suite α) (passed : Bool)
    (data : FailureData) : Suite α × Option JsError :=
  if isFailure passed then
    let s' := { s with result :=
      { s.result with failedExpectations :=
          s.result.failedExpectations ++
            [{ payload := s.expectationResultFactory data }] } }
    if s.throwOnExpectationFailure then (s', some JsError.expectationFailed)
    else (s', none)
  else (s, none)

/-- `Suite.prototype.onException` (src/core/Suite.js lines 189-208). -/
def Suite.onException {α : Type} (s : Suite α) (err : JsError) : Suite α :=
  if err = JsError.expectationFailed then s
  else
    let data : FailureData :=
      { matcherName := ""
        passed := false
        expected := ""
        actual := ""
        error := some err }
    let failedExpectation : ExpectationResult α :=
      { payload := s.expectationResultFactory data
        globalErrorType :=
          if s.parentSuite.isNone then some "afterAll" else none }
    { s with result :=
        { s.result with failedExpectations :=
            s.result.failedExpectations ++ [failedExpectation] } }

/-- `Suite.prototype.addDeprecationWarning`: raw text is first wrapped into a
record carrying only that message, then the factory-normalized record is
pushed onto `deprecationWarnings`. -/
def Suite.addDeprecationWarning {α : Type} (s : Suite α)
    (deprecation : String ⊕ FailureData) : Suite α :=
  let data : FailureData :=
    match deprecation with
    | Sum.inl text =>
        { matcherName := ""
          passed := true
          expected := ""
          actual := ""
          error := none
          message := some text }
    | Sum.inr record => record
  { s with result :=
      { s.result with deprecationWarnings :=
          s.result.deprecationWarnings ++ [s.expectationResultFactory data] } }

/-- One engine-driven operation on a suite: every `Suite.prototype` method
that mutates the suite's own state.  `addExpectationResultOp` carries both
arguments; `sharedUserContextOp` carries the heap reference the lazy
initialization would store; `endTimerOp` carries the externally measured
elapsed time. -/
inductive Op where
  | pendOp
  | beforeEachOp (fn : QueueableFn)
  | beforeAllOp (fn : QueueableFn)
  | afterEachOp (fn : QueueableFn)
  | afterAllOp (fn : QueueableFn)
  | cleanupBeforeAfterOp
  | addChildOp (child : Nat)
  | setSuitePropertyOp (key : String) (value : Int)
  | endTimerOp (elapsed : Int)
  | addExpectationResultOp (passed : Bool) (data : FailureData)
  | onExceptionOp (err : JsError)
  | addDeprecationWarningOp (deprecation : String ⊕ FailureData)
  | getResultOp
  | sharedUserContextOp (ref : Nat)
deriving DecidableEq, Repr

/-- Effect of one operation on the suite state (for `addExpectationResult`
the state component, the control signal being the engine's concern; for
`sharedUserContext` the lazy assignment of the context reference). -/
def applyOp {α : Type} (s : Suite α) : Op → Suite α
  | Op.pendOp => s.pend
  | Op.beforeEachOp fn => s.beforeEach fn
  | Op.beforeAllOp fn => s.beforeAll fn
  | Op.afterEachOp fn => s.afterEach fn
  | Op.afterAllOp fn => s.afterAll fn
  | Op.cleanupBeforeAfterOp => s.cleanupBeforeAfter
  | Op.addChildOp child => s.addChild child
  | Op.setSuitePropertyOp key value => s.setSuiteProperty key value
  | Op.endTimerOp elapsed => s.endTimer elapsed
  | Op.addExpectationResultOp passed data =>
      (s.addExpectationResult passed data).1
  | Op.onExceptionOp err => s.onException err
  | Op.addDeprecationWarningOp deprecation =>
      s.addDeprecationWarning deprecation
  | Op.getResultOp => s.getResult.1
  | Op.sharedUserContextOp ref =>
      if s.sharedContext.isNone then { s with sharedContext := some ref }
      else s

/-- Folding a whole operation sequence over the state. -/
def applyOps {α : Type} (s : Suite α) (ops : List Op) : Suite α :=
  ops.foldl (fun acc op => applyOp acc op) s

/-- Modelled from the spec: the `UserContext` fixture-context value type is
not under src/ (only `Suite.js` is); §4.7 and §6 describe it as a mutable
key-value store where `new j$.UserContext()` creates an empty one and
`j$.UserContext.fromExisting(ctx)` yields an independent value-copy of
`ctx`'s current contents.  A context's contents are an association list
(first binding wins); identity lives in the heap below. -/
abbrev UserContext : Type :=
  List (String × Int)

/-- Modelled from the spec: `new j$.UserContext()` — empty contents. -/
def UserContext.empty : UserContext :=
  []

/-- Modelled from the spec: `j$.UserContext.fromExisting` copies the current
contents; independence comes from allocating the copy at a fresh heap
reference. -/
def UserContext.fromExisting (c : UserContext) : UserContext :=
  c

/-- The heap of live contexts, addressed by allocation index. -/
abbrev CtxHeap : Type :=
  List UserContext

/-- Allocate a new context object, returning its fresh reference. -/
def CtxHeap.alloc (heap : CtxHeap) (c : UserContext) : Nat × CtxHeap :=
  (heap.length, heap ++ [c])

/-- Read a context's contents. -/
def CtxHeap.read (heap : CtxHeap) (r : Nat) : UserContext :=
  (heap[r]?).getD []

/-- JS property read `ctx.k` on the context at `r`. -/
def ctxGet (heap : CtxHeap) (r : Nat) (k : String) : Option Int :=
  ((heap.read r).lookup k : Option Int)

/-- JS property write `ctx.k = v` on the context at `r` (in place). -/
def ctxSet (heap : CtxHeap) (r : Nat) (k : String) (v : Int) : CtxHeap :=
  heap.modify (fun c => (k, v) :: c.filter (fun kv => kv.1 ≠ k)) r

/-- The `sharedContext` slots along a node's ancestor chain: the node's own
slot plus its parent's chain. -/
inductive CtxChain where
  | root (slot : Option Nat)
  | child (slot : Option Nat) (parent : CtxChain)
deriving DecidableEq, Repr

/-- This node's stored `sharedContext` reference. -/
def CtxChain.slotOf : CtxChain → Option Nat
  | .root slot => slot
  | .child slot _ => slot

/-- `Suite.prototype.sharedUserContext` along the chain: if this node's
`sharedContext` is unset, a root creates a fresh empty context and a child
stores its parent's `clonedSharedUserContext()` — a fresh copy of the
parent's current contents (the parent's own context being created first the
same way).  Returns the reference, the updated chain and the updated heap. -/
def sharedUserContext : CtxChain → CtxHeap → Nat × CtxChain × CtxHeap
  | CtxChain.root (some r), heap => (r, CtxChain.root (some r), heap)
  | CtxChain.root none, heap =>
      let a := heap.alloc UserContext.empty
      (a.1, CtxChain.root (some a.1), a.2)
  | CtxChain.child (some r) p, heap => (r, CtxChain.child (some r) p, heap)
  | CtxChain.child none p, heap =>
      let u := sharedUserContext p heap
      let a := u.2.2.alloc (UserContext.fromExisting (u.2.2.read u.1))
      (a.1, CtxChain.child (some a.1) u.2.1, a.2)

/-- `Suite.prototype.clonedSharedUserContext`: a fresh copy of this node's
own (lazily created) context. -/
def clonedSharedUserContext (c : CtxChain) (heap : CtxHeap) :
    Nat × CtxChain × CtxHeap :=
  let u := sharedUserContext c heap
  let a := u.2.2.alloc (UserContext.fromExisting (u.2.2.read u.1))
  (a.1, u.2.1, a.2)

/-- Identity factory, used to instantiate the opaque normalized-result type
at concrete inputs. -/
def idFactory : FailureData → FailureData :=
  fun data => data

/-- A concrete root suite. -/
def sampleRoot : Suite FailureData :=
  Suite.init FailureData 1 none "root" idFactory false

/-- A concrete child suite with `throwOnExpectationFailure` set. -/
def sampleChild : Suite FailureData :=
  Suite.init FailureData 2 (some (Chain.root "root")) "Calculator" idFactory
    true

/-- Concrete matcher data. -/
def sampleData : FailureData :=
  { matcherName := "toBe"
    passed := false
    expected := "1"
    actual := "2"
    error := none }

/-- A concrete hook object. -/
def sampleFn : QueueableFn :=
  { fn := some 7, meta := 3 }

theorem addExpectationResult_fst {α : Type} (s : Suite α) (passed : Bool)
    (data : FailureData) :
    (s.addExpectationResult passed data).1 =
      if isFailure passed then
        { s with result :=
          { s.result with failedExpectations :=
              s.result.failedExpectations ++
                [{ payload := s.expectationResultFactory data }] } }
      else s := by
  unfold Suite.addExpectationResult
  cases hp : isFailure passed
  · simp
  · cases ht : s.throwOnExpectationFailure <;> simp [ht]

theorem applyOp_preserves {α : Type} (s : Suite α) (op : Op) :
    (applyOp s op).parentSuite = s.parentSuite ∧
    (applyOp s op).description = s.description ∧
    (applyOp s op).result.fullName = s.result.fullName ∧
    (s.markedPending = true → (applyOp s op).markedPending = true) := by
  cases op <;>
    simp only [applyOp, Suite.pend, Suite.beforeEach, Suite.beforeAll,
      Suite.afterEach, Suite.afterAll, Suite.cleanupBeforeAfter,
      Suite.addChild, Suite.setSuiteProperty, Suite.endTimer,
      addExpectationResult_fst, Suite.onException, Suite.addDeprecationWarning,
      Suite.getResult] <;>
    first
      | (split <;> simp)
      | simp

/-- **C2.** For every suite and call `addExpectationResult(passed, data)`
with falsy `passed`: exactly one entry — the factory-normalized `data` — is
appended to `result.failedExpectations`; then the dedicated
`ExpectationFailed` control signal is raised synchronously before returning
if and only if `throwOnExpectationFailure` is set; and feeding that same
signal into `onException` afterwards adds no second entry. -/
theorem addExpectationResult_failure_spec {α : Type} (s : Suite α)
    (data : FailureData) :
    ((s.addExpectationResult false data).1.result.failedExpectations =
      s.result.failedExpectations ++
        [{ payload := s.expectationResultFactory data }]) ∧
    ((s.addExpectationResult false data).2 = some JsError.expectationFailed ↔
      s.throwOnExpectationFailure = true) ∧
    (s.throwOnExpectationFailure = false →
      (s.addExpectationResult false data).2 = none) ∧
    ((s.addExpectationResult false data).1.onException
        JsError.expectationFailed =
      (s.addExpectationResult false data).1) := by
  refine ⟨?_, ?_, ?_, ?_⟩
  · rw [addExpectationResult_fst]
    simp [isFailure]
  · unfold Suite.addExpectationResult
    cases ht : s.throwOnExpectationFailure <;> simp [isFailure, ht]
  · intro ht
    unfold Suite.addExpectationResult
    simp [isFailure, ht]
  · rw [Suite.onException]
    simp

/-- Closed instance of `addExpectationResult_failure_spec` at a concrete
suite with `throwOnExpectationFailure` set and concrete matcher data. -/
theorem addExpectationResult_failure_spec_witness :
    ((sampleChild.addExpectationResult false sampleData).2 =
        some JsError.expectationFailed ↔
      sampleChild.throwOnExpectationFailure = true) ∧
    (sampleChild.addExpectationResult false
        sampleData).1.result.failedExpectations =
      [{ payload := sampleData }] :=
  ⟨(addExpectationResult_failure_spec sampleChild sampleData).2.1, by
    rw [(addExpectationResult_failure_spec sampleChild sampleData).1]
    rfl⟩

/-- **C10.** For every suite and every data, `addExpectationResult` with a
truthy `passed` is a complete no-op: the state is returned unchanged, the
passing expectation is recorded nowhere, and no exception is raised even
when `throwOnExpectationFailure` is set. -/
theorem addExpectationResult_pass_spec {α : Type} (s : Suite α)
    (data : FailureData) :
    s.addExpectationResult true data = (s, none) := by
  unfold Suite.addExpectationResult
  simp [isFailure]

/-- **C3.** For every suite, `status()` returns `"pending"` when
`markedPending`, else `"failed"` when `failedExpectations` is non-empty,
else `"passed"`; after `pend()` the status is `"pending"` even when a
failing expectation is recorded afterwards; and no operation ever unsets
`markedPending`. -/
theorem status_spec {α : Type} (s : Suite α) (data : FailureData) (op : Op) :
    (s.markedPending = true → s.status = "pending") ∧
    (s.markedPending = false → s.result.failedExpectations ≠ [] →
      s.status = "failed") ∧
    (s.markedPending = false → s.result.failedExpectations = [] →
      s.status = "passed") ∧
    ((s.pend.addExpectationResult false data).1.status = "pending") ∧
    (s.markedPending = true → (applyOp s op).markedPending = true) := by
  refine ⟨?_, ?_, ?_, ?_, (applyOp_preserves s op).2.2.2⟩
  · intro h
    simp [Suite.status, h]
  · intro h hne
    simp [Suite.status, h, List.length_pos, hne]
  · intro h he
    simp [Suite.status, h, he]
  · rw [addExpectationResult_fst]
    simp [isFailure, Suite.status, Suite.pend]

/-- Closed instance of `status_spec`: a concrete pended suite stays pending
through a failing expectation and through a further operation. -/
theorem status_spec_witness :
    (sampleRoot.pend.markedPending = true →
      (applyOp sampleRoot.pend (Op.addExpectationResultOp false
        sampleData)).markedPending = true) ∧
    (sampleRoot.pend.addExpectationResult false sampleData).1.status =
      "pending" :=
  ⟨(status_spec sampleRoot.pend sampleData
      (Op.addExpectationResultOp false sampleData)).2.2.2.2,
    (status_spec sampleRoot sampleData Op.pendOp).2.2.2.1⟩

/-- **C4.** For every suite and error fed to `onException`: the dedicated
`ExpectationFailed` control signal leaves the state entirely unchanged;
any other error appends exactly one factory-normalized record with empty
`matcherName`, empty `expected`, empty `actual` and the error attached, and
that record carries the fixed global-error marker `"afterAll"` exactly when
the suite has no parent, regardless of which phase actually threw. -/
theorem onException_spec {α : Type} (s : Suite α) (err : JsError) :
    (s.onException JsError.expectationFailed = s) ∧
    (err ≠ JsError.expectationFailed →
      (s.onException err).result.failedExpectations =
        s.result.failedExpectations ++
          [{ payload := s.expectationResultFactory
               { matcherName := ""
                 passed := false
                 expected := ""
                 actual := ""
                 error := some err }
             globalErrorType :=
               if s.parentSuite.isNone then some "afterAll" else none }]) := by
  constructor
  · rw [Suite.onException]
    simp
  · intro h
    rw [Suite.onException]
    simp [h]

/-- Closed instance of `onException_spec`: a non-signal error on a concrete
root suite is appended once, tagged with the `"afterAll"` marker. -/
theorem onException_spec_witness :
    JsError.other 0 ≠ JsError.expectationFailed ∧
    (sampleRoot.onException (JsError.other 0)).result.failedExpectations =
      [{ payload :=
           { matcherName := ""
             passed := false
             expected := ""
             actual := ""
             error := some (JsError.other 0) }
         globalErrorType := some "afterAll" }] :=
  ⟨by decide, by
    rw [(onException_spec sampleRoot (JsError.other 0)).2 (by decide)]
    rfl⟩

/-- **C5.** For every suite, `beforeAll` appends to the end of
`beforeAllFns` (declaration order), while `afterAll`, `beforeEach` and
`afterEach` prepend to the front of `afterAllFns`, `beforeFns` and
`afterFns` respectively (reverse declaration order); each registration
changes exactly its own list and leaves the other three unchanged. -/
theorem hookRegistration_spec {α : Type} (s : Suite α) (fn : QueueableFn) :
    ((s.beforeAll fn).beforeAllFns = s.beforeAllFns ++ [fn] ∧
     (s.beforeAll fn).afterAllFns = s.afterAllFns ∧
     (s.beforeAll fn).beforeFns = s.beforeFns ∧
     (s.beforeAll fn).afterFns = s.afterFns) ∧
    ((s.afterAll fn).afterAllFns = fn :: s.afterAllFns ∧
     (s.afterAll fn).beforeAllFns = s.beforeAllFns ∧
     (s.afterAll fn).beforeFns = s.beforeFns ∧
     (s.afterAll fn).afterFns = s.afterFns) ∧
    ((s.beforeEach fn).beforeFns = fn :: s.beforeFns ∧
     (s.beforeEach fn).beforeAllFns = s.beforeAllFns ∧
     (s.beforeEach fn).afterAllFns = s.afterAllFns ∧
     (s.beforeEach fn).afterFns = s.afterFns) ∧
    ((s.afterEach fn).afterFns = fn :: s.afterFns ∧
     (s.afterEach fn).beforeAllFns = s.beforeAllFns ∧
     (s.afterEach fn).afterAllFns = s.afterAllFns ∧
     (s.afterEach fn).beforeFns = s.beforeFns) :=
  ⟨⟨rfl, rfl, rfl, rfl⟩, ⟨rfl, rfl, rfl, rfl⟩, ⟨rfl, rfl, rfl, rfl⟩,
    ⟨rfl, rfl, rfl, rfl⟩⟩

/-- **C8.** For every suite, `cleanupBeforeAfter()` clears the function
reference of every hook in all four hook lists while leaving each list's
length unchanged, and leaves `children`, the result record and the shared
context unchanged. -/
theorem cleanupBeforeAfter_spec {α : Type} (s : Suite α) :
    (s.cleanupBeforeAfter.beforeAllFns.length = s.beforeAllFns.length ∧
     s.cleanupBeforeAfter.afterAllFns.length = s.afterAllFns.length ∧
     s.cleanupBeforeAfter.beforeFns.length = s.beforeFns.length ∧
     s.cleanupBeforeAfter.afterFns.length = s.afterFns.length) ∧
    ((∀ q ∈ s.cleanupBeforeAfter.beforeAllFns, q.fn = none) ∧
     (∀ q ∈ s.cleanupBeforeAfter.afterAllFns, q.fn = none) ∧
     (∀ q ∈ s.cleanupBeforeAfter.beforeFns, q.fn = none) ∧
     (∀ q ∈ s.cleanupBeforeAfter.afterFns, q.fn = none)) ∧
    (s.cleanupBeforeAfter.children = s.children ∧
     s.cleanupBeforeAfter.result = s.result ∧
     s.cleanupBeforeAfter.sharedContext = s.sharedContext) := by
  simp [Suite.cleanupBeforeAfter, removeFns]

/-- Closed instance of `cleanupBeforeAfter_spec`: on a concrete suite with a
registered `beforeAll` hook, the cleared hook object is in the list with its
`fn` slot nulled, the hook count is kept and the result is untouched. -/
theorem cleanupBeforeAfter_spec_witness :
    ({ fn := none, meta := 3 } : QueueableFn) ∈
        (sampleRoot.beforeAll sampleFn).cleanupBeforeAfter.beforeAllFns ∧
    ({ fn := none, meta := 3 } : QueueableFn).fn = none ∧
    (sampleRoot.beforeAll
        sampleFn).cleanupBeforeAfter.beforeAllFns.length =
      (sampleRoot.beforeAll sampleFn).beforeAllFns.length ∧
    (sampleRoot.beforeAll sampleFn).cleanupBeforeAfter.result =
      (sampleRoot.beforeAll sampleFn).result :=
  ⟨by decide,
    (cleanupBeforeAfter_spec (sampleRoot.beforeAll sampleFn)).2.1.1
      { fn := none, meta := 3 } (by decide),
    (cleanupBeforeAfter_spec (sampleRoot.beforeAll sampleFn)).1.1,
    (cleanupBeforeAfter_spec (sampleRoot.beforeAll sampleFn)).2.2.2.1⟩

/-- **C9.** For every suite, `canBeReentered()` is true exactly when both
`beforeAllFns` and `afterAllFns` are empty: true for a freshly constructed
suite, false after a single `beforeAll` or `afterAll` registration, and
unaffected by `beforeEach`/`afterEach` registrations. -/
theorem canBeReentered_spec {α : Type} (s : Suite α) (fn : QueueableFn)
    (factory : FailureData → α) :
    (s.canBeReentered = true ↔ (s.beforeAllFns = [] ∧ s.afterAllFns = [])) ∧
    ((Suite.init α 0 none "fresh" factory false).canBeReentered = true) ∧
    ((s.beforeAll fn).canBeReentered = false) ∧
    ((s.afterAll fn).canBeReentered = false) ∧
    ((s.beforeEach fn).canBeReentered = s.canBeReentered) ∧
    ((s.afterEach fn).canBeReentered = s.canBeReentered) := by
  refine ⟨?_, rfl, ?_, ?_, rfl, rfl⟩
  · simp [Suite.canBeReentered, List.length_eq_zero]
  · simp [Suite.canBeReentered, Suite.beforeAll]
  · simp [Suite.canBeReentered, Suite.afterAll]

/-- Closed instance of `canBeReentered_spec` at a concrete fresh suite and a
concrete hook registration. -/
theorem canBeReentered_spec_witness :
    (sampleRoot.canBeReentered = true ↔
      (sampleRoot.beforeAllFns = [] ∧ sampleRoot.afterAllFns = [])) ∧
    (sampleRoot.beforeAll sampleFn).canBeReentered = false :=
  ⟨(canBeReentered_spec sampleRoot sampleFn idFactory).1,
    (canBeReentered_spec sampleRoot sampleFn idFactory).2.2.1⟩

theorem getFullName_congr {α : Type} (s t : Suite α)
    (hp : t.parentSuite = s.parentSuite)
    (hd : t.description = s.description) :
    t.getFullName = s.getFullName := by
  rw [Suite.getFullName, Suite.getFullName, Suite.chain, Suite.chain, hp, hd]

theorem applyOps_cons {α : Type} (s : Suite α) (op : Op) (rest : List Op) :
    applyOps s (op :: rest) = applyOps (applyOp s op) rest :=
  rfl

theorem applyOps_fullName_inv {α : Type} (s : Suite α) (ops : List Op)
    (h : s.result.fullName = s.getFullName) :
    (applyOps s ops).result.fullName = (applyOps s ops).getFullName := by
  induction ops generalizing s with
  | nil => exact h
  | cons op rest ih =>
    rw [applyOps_cons]
    apply ih
    have hpre := applyOp_preserves s op
    rw [hpre.2.2.1, getFullName_congr s (applyOp s op) hpre.1 hpre.2.1]
    exact h

/-- **C7.** For every suite, the `fullName` field of the record returned by
`getResult()` agrees, at every point of the suite's lifetime — that is,
after every sequence of engine operations applied to a freshly constructed
suite — with what `getFullName()` returns at that same moment, so it behaves
as a pure function of the ancestor chain rather than a stale value. -/
theorem getResult_fullName_spec {α : Type} (id : Nat) (pc : Option Chain)
    (desc : String) (factory : FailureData → α) (flag : Bool)
    (ops : List Op) :
    (applyOps (Suite.init α id pc desc factory flag)
        ops).getResult.2.fullName =
      (applyOps (Suite.init α id pc desc factory flag) ops).getFullName := by
  have h := applyOps_fullName_inv (Suite.init α id pc desc factory flag) ops
    rfl
  rw [Suite.getResult]
  exact h

theorem sharedUserContext_slot_some (p : CtxChain) (rp : Nat)
    (heap : CtxHeap) (h : p.slotOf = some rp) :
    sharedUserContext p heap = (rp, p, heap) := by
  cases p with
  | root slot => cases slot <;> simp_all [CtxChain.slotOf, sharedUserContext]
  | child slot q =>
    cases slot <;> simp_all [CtxChain.slotOf, sharedUserContext]

theorem read_append_self (heap : CtxHeap) (c : UserContext) :
    (heap ++ [c]).read heap.length = c := by
  simp [CtxHeap.read]

theorem read_append_two (heap : CtxHeap) (c d : UserContext) :
    (heap ++ [c, d]).read (heap.length + 1) = d := by
  rw [CtxHeap.read, List.getElem?_append_right (by omega)]
  simp

/-- **C6.** For every suite, `sharedUserContext()` creates the context
lazily on first call — a fresh empty context for a root, and for a non-root
a fresh independent value-snapshot of the parent's current context contents
— and later calls return the same stored context; `clonedSharedUserContext`
returns a fresh independent copy of this node's current context; and a
mutation the parent makes to its own context after the child obtained its
context is never observable in the child's context. -/
theorem sharedUserContext_spec (heap : CtxHeap) (p : CtxChain) (rp : Nat)
    (hslot : p.slotOf = some rp) (hrp : rp < heap.length) :
    (sharedUserContext (CtxChain.child none p) heap =
      (heap.length, CtxChain.child (some heap.length) p,
        heap ++ [heap.read rp])) ∧
    (sharedUserContext (CtxChain.child (some heap.length) p)
        (heap ++ [heap.read rp]) =
      (heap.length, CtxChain.child (some heap.length) p,
        heap ++ [heap.read rp])) ∧
    (sharedUserContext (CtxChain.root none) heap =
      (heap.length, CtxChain.root (some heap.length),
        heap ++ [UserContext.empty])) ∧
    ((clonedSharedUserContext (CtxChain.child (some heap.length) p)
        (heap ++ [heap.read rp])).1 = heap.length + 1 ∧
      (clonedSharedUserContext (CtxChain.child (some heap.length) p)
          (heap ++ [heap.read rp])).2.2.read (heap.length + 1) =
        heap.read rp) ∧
    (∀ k : String, ∀ v : Int, ∀ k' : String,
      ctxGet (ctxSet (heap ++ [heap.read rp]) rp k v) heap.length k' =
        ctxGet (heap ++ [heap.read rp]) heap.length k') := by
  refine ⟨?_, ?_, ?_, ⟨?_, ?_⟩, ?_⟩
  · rw [sharedUserContext, sharedUserContext_slot_some p rp heap hslot]
    simp [CtxHeap.alloc, UserContext.fromExisting, CtxHeap.read]
  · rfl
  · simp [sharedUserContext, CtxHeap.alloc]
  · simp [clonedSharedUserContext, sharedUserContext, CtxHeap.alloc]
  · have hH := read_append_self heap (heap.read rp)
    rw [clonedSharedUserContext]
    simp only [sharedUserContext, CtxHeap.alloc, UserContext.fromExisting,
      hH, List.append_assoc, List.singleton_append]
    exact read_append_two heap (heap.read rp) (heap.read rp)
  · intro k v k'
    have hne : rp ≠ heap.length := Nat.ne_of_lt hrp
    simp only [ctxGet, ctxSet, CtxHeap.read]
    rw [List.getElem?_modify_ne _ _ hne]

/-- A concrete one-context heap: the parent suite's context holds x = 1. -/
def ctxHeap0 : CtxHeap :=
  [[("x", 1)]]

/-- Closed instance of `sharedUserContext_spec`: the parent context holds
x = 1 when the child first materializes its context; the parent then sets
x = 2 on its own context, and the child's context still holds x = 1 while
the parent's holds x = 2. -/
theorem sharedUserContext_spec_witness :
    (CtxChain.root (some 0)).slotOf = some 0 ∧
    0 < ctxHeap0.length ∧
    ctxGet (ctxSet (ctxHeap0 ++ [ctxHeap0.read 0]) 0 "x" 2)
        ctxHeap0.length "x" =
      ctxGet (ctxHeap0 ++ [ctxHeap0.read 0]) ctxHeap0.length "x" ∧
    ctxGet (ctxHeap0 ++ [ctxHeap0.read 0]) ctxHeap0.length "x" = some 1 ∧
    ctxGet (ctxSet (ctxHeap0 ++ [ctxHeap0.read 0]) 0 "x" 2) 0 "x" =
      some 2 :=
  ⟨rfl, by decide,
    (sharedUserContext_spec ctxHeap0 (CtxChain.root (some 0)) 0 rfl
      (by decide)).2.2.2.2 "x" 2 "x",
    by decide, by decide⟩

end JasmineSuite
